import Mathlib

/-!
Verification of the PARTH session-runtime state machine (`src/src/App.tsx`).

The TypeScript component keeps one mutable `State` value and transforms it
with small pure reducers: a 1-second timer tick, `runTask`, `pauseOrResume`,
`applyMissedDeadlineRule`, the two task creators, and `normalizeState` for
storage loading.  This file shallowly embeds those reducers in Lean:

* JavaScript `number` values are modelled as rationals (`ℚ`); the divisions
  and comparisons performed by the code (`k/n < 0.5`, `k/n > 0.8` with
  `n ≤ 6`, and the mean-cost test) are exact at these denominators, so the
  rational model agrees with IEEE doubles on every value the code produces.
* ISO-8601 timestamp strings are modelled by their epoch-milliseconds value
  (the string form is order- and value-isomorphic to the number used to
  build it); `Date.now()` and `new Date().getHours()` become explicit
  `now`/`hour` parameters of the reducers that read the clock.
* `undefined`/optional fields become `Option`.
* `Math.random()`-based `uid()` becomes an explicit `id` parameter to the
  task creators; reachability assumes the generated id is fresh, which is
  the property `uid` is used for.
-/

namespace Parth

inductive Mode
  | student
  | worker
  | custom
deriving DecidableEq, Repr

inductive Tone
  | Calm
  | Neutral
  | Technical
deriving DecidableEq, Repr

inductive TaskState
  | Idle
  | Queued
  | Running
  | Suspended
  | Completed
deriving DecidableEq, Repr

inductive PresetSound
  | NeuralPulse
  | SoftBell
  | MechanicalClick
  | AmbientTone
deriving DecidableEq, Repr

inductive RuleTemplate
  | missed_deadline_requeue
  | early_break_reduce_next
  | streak_extend_session
deriving DecidableEq, Repr

inductive Phase
  | focus
  | «break»
deriving DecidableEq, Repr

/-- `interface Task` of App.tsx; `deadline`, `createdAt`, `completedAt` are
ISO strings in the source, modelled by epoch milliseconds. -/
structure Task where
  id : String
  name : String
  category : String
  priorityWeight : ℚ
  estimatedFocusCost : ℚ
  state : TaskState
  mode : Mode
  deadline : Option ℚ
  createdAt : ℚ
  completedAt : Option ℚ
  totalFocusSeconds : ℚ
deriving DecidableEq, Repr

/-- `interface Session` of App.tsx. -/
structure Session where
  taskId : String
  startedAt : ℚ
  endedAt : Option ℚ
  plannedSeconds : ℚ
  completedSeconds : ℚ
  completed : Bool
  interrupted : Bool
deriving DecidableEq, Repr

/-- One `{ focus, break }` entry of the `pomodoro` record. -/
structure PomodoroProfile where
  focus : ℚ
  «break» : ℚ
deriving DecidableEq, Repr

/-- `Record<Mode, { focus, break }>`. -/
structure PomodoroTable where
  student : PomodoroProfile
  worker : PomodoroProfile
  custom : PomodoroProfile
deriving DecidableEq, Repr

/-- Indexing `pomodoro[mode]`. -/
def PomodoroTable.get (p : PomodoroTable) : Mode → PomodoroProfile
  | .student => p.student
  | .worker => p.worker
  | .custom => p.custom

/-- `interface Settings` of App.tsx. -/
structure Settings where
  mode : Mode
  tone : Tone
  pomodoro : PomodoroTable
  neuralIntensity : ℚ
  notificationStrength : ℚ
  adaptivePomodoro : Bool
  volume : ℚ
  focusMode : Bool
  presetSound : PresetSound
  customSoundPath : String
  useCustomSound : Bool
deriving DecidableEq, Repr

/-- The `timer` field of `interface State`. -/
structure Timer where
  phase : Phase
  running : Bool
  remaining : ℚ
  total : ℚ
deriving DecidableEq, Repr

/-- `interface State` of App.tsx (the Root State). -/
structure State where
  tasks : List Task
  sessions : List Session
  settings : Settings
  timer : Timer
  activeTaskId : Option String
  streak : Nat
  onboardingDone : Bool
  rules : List RuleTemplate
deriving DecidableEq, Repr

/-- `defaultSettings` of App.tsx. -/
def defaultSettings : Settings :=
  { mode := .student
    tone := .Calm
    pomodoro :=
      { student := { focus := 25, «break» := 5 }
        worker := { focus := 50, «break» := 10 }
        custom := { focus := 35, «break» := 8 } }
    neuralIntensity := 7/10
    notificationStrength := 55/100
    adaptivePomodoro := true
    volume := 65/100
    focusMode := false
    presetSound := .NeuralPulse
    customSoundPath := "/sounds/custom/your-sound.mp3"
    useCustomSound := false }

/-- `initialState` of App.tsx. -/
def initialState : State :=
  { tasks := []
    sessions := []
    settings := defaultSettings
    timer := { phase := .focus, running := false, remaining := 25 * 60, total := 25 * 60 }
    activeTaskId := none
    streak := 0
    onboardingDone := false
    rules := [.missed_deadline_requeue, .early_break_reduce_next, .streak_extend_session] }

/-- `clamp` of App.tsx: `Math.min(max, Math.max(min, value))`. -/
def clamp (value lo hi : ℚ) : ℚ := min hi (max lo value)

/-- `sessions.slice(-6)`: the at most 6 most recent elements. -/
def lastSix (l : List Session) : List Session := l.drop (l.length - 6)

/-- `getAdaptiveFocusSeconds` of App.tsx (lines 217-242).  The wall-clock
read `new Date().getHours()` is the explicit `hour` parameter. -/
def getAdaptiveFocusSeconds (hour : Nat) (s : State) : ℚ :=
  let modeProfile := s.settings.pomodoro.get s.settings.mode
  if !s.settings.adaptivePomodoro then modeProfile.focus * 60
  else
    let recentSessions := lastSix s.sessions
    let completionRate : ℚ :=
      if recentSessions.length = 0 then 1
      else ((recentSessions.filter (fun ss => ss.completed)).length : ℚ) / (recentSessions.length : ℚ)
    let averageTaskCost : ℚ :=
      if s.tasks.length = 0 then 3
      else (s.tasks.foldl (fun acc t => acc + t.estimatedFocusCost) 0) / (s.tasks.length : ℚ)
    let m0 := modeProfile.focus
    let m1 := if completionRate < 1/2 ∧ s.rules.contains .early_break_reduce_next then m0 - 5 else m0
    let m2 := if completionRate > 4/5 ∧ s.rules.contains .streak_extend_session then m1 + 5 else m1
    let m3 := if averageTaskCost ≥ 4 then m2 + 5 else m2
    let m4 := if 22 ≤ hour ∨ hour < 7 then m3 - 5 else m3
    clamp m4 15 70 * 60

/-- Modelled from the spec (section 4.2, "Adaptive Duration Calculator"):
the reference algorithm written from the spec's wording, step by step, to be
compared with `getAdaptiveFocusSeconds` above.  Step 1: completionRate =
completed count among last 6 sessions / count, or 1 if fewer than 1 sessions
exist.  Step 2: averageCost = mean of all tasks' estimated cost, or 3 if no
tasks exist.  Steps 3-7: start from base focus minutes, subtract 5 when
completionRate < 0.5 and the shorten rule is enabled, add 5 when
completionRate > 0.8 and the extend rule is enabled, add 5 when
averageCost ≥ 4, subtract 5 when the local hour lies in [22,24) ∪ [0,7).
Step 8: clamp to [15,70] and convert to seconds.  When adaptive mode is
disabled, return base minutes × 60 unconditionally. -/
def specAdaptiveDurationSeconds (hour : Nat) (s : State) : ℚ :=
  let baseFocusMinutes := (s.settings.pomodoro.get s.settings.mode).focus
  if !s.settings.adaptivePomodoro then baseFocusMinutes * 60
  else
    let lastSessions := lastSix s.sessions
    let completionRate : ℚ :=
      if lastSessions.length = 0 then 1
      else ((lastSessions.filter (fun ss => ss.completed)).length : ℚ) / (lastSessions.length : ℚ)
    let averageCost : ℚ :=
      if s.tasks.length = 0 then 3
      else (s.tasks.foldl (fun acc t => acc + t.estimatedFocusCost) 0) / (s.tasks.length : ℚ)
    let step3 := baseFocusMinutes
    let step4 := if completionRate < 1/2 ∧ s.rules.contains .early_break_reduce_next then step3 - 5 else step3
    let step5 := if completionRate > 4/5 ∧ s.rules.contains .streak_extend_session then step4 + 5 else step4
    let step6 := if averageCost ≥ 4 then step5 + 5 else step5
    let step7 := if 22 ≤ hour ∨ hour < 7 then step6 - 5 else step6
    clamp step7 15 70 * 60

/-- The body of the 1-second interval of App.tsx (lines 244-307): the timer
tick reducer applied by `setState`.  `now` is `Date.now()` in epoch
milliseconds; `new Date().toISOString()` denotes the same instant. -/
def tick (now : ℚ) (s : State) : State :=
  if !s.timer.running then s
  else if s.timer.remaining > 0 then
    { s with timer := { s.timer with remaining := s.timer.remaining - 1 } }
  else if s.timer.phase = .focus then
    let finishedSession : Option Session :=
      s.activeTaskId.map fun tid =>
        { taskId := tid
          startedAt := now - s.timer.total * 1000
          endedAt := some now
          plannedSeconds := s.timer.total
          completedSeconds := s.timer.total
          completed := true
          interrupted := false }
    { s with
      sessions :=
        match finishedSession with
        | some fs => s.sessions ++ [fs]
        | none => s.sessions
      streak := s.streak + 1
      tasks := s.tasks.map fun t =>
        if some t.id = s.activeTaskId then
          { t with
            state := .Completed
            totalFocusSeconds := t.totalFocusSeconds + s.timer.total
            completedAt := some now }
        else t
      activeTaskId := none
      timer :=
        { phase := .«break»
          running := true
          remaining := (s.settings.pomodoro.get s.settings.mode).«break» * 60
          total := (s.settings.pomodoro.get s.settings.mode).«break» * 60 } }
  else
    { s with
      timer :=
        { phase := .focus
          running := false
          remaining := (s.settings.pomodoro.get s.settings.mode).focus * 60
          total := (s.settings.pomodoro.get s.settings.mode).focus * 60 } }

/-- The arrow function inside the `map` of `applyMissedDeadlineRule`
(App.tsx lines 322-327): requeue a task whose deadline is strictly past
and whose state is not `Completed`. -/
def requeueTask (now : ℚ) (t : Task) : Task :=
  match t.deadline with
  | some d => if d < now ∧ t.state ≠ .Completed then { t with state := .Queued } else t
  | none => t

/-- `applyMissedDeadlineRule` of App.tsx (lines 316-329).  `now` is
`Date.now()`; `new Date(task.deadline).getTime()` is the stored deadline
value. -/
def applyMissedDeadlineRule (now : ℚ) (s : State) : State :=
  if !s.rules.contains .missed_deadline_requeue then s
  else { s with tasks := s.tasks.map (requeueTask now) }

/-- `createQuickTask` of App.tsx (lines 336-353).  `id` stands for the
`uid()` result, `name` for the `quickTask` input field, `now` for
`new Date().toISOString()`. -/
def createQuickTask (id name : String) (now : ℚ) (s : State) : State :=
  if name.trim.isEmpty then s
  else
    { s with
      tasks := s.tasks ++
        [{ id := id
           name := name.trim
           category := "General"
           priorityWeight := 3
           estimatedFocusCost := 3
           state := .Queued
           mode := s.settings.mode
           deadline := none
           createdAt := now
           completedAt := none
           totalFocusSeconds := 0 }] }

/-- `createAdvancedTask` of App.tsx (lines 355-373); the `advancedTask` form
fields are explicit parameters (`deadline` already holds the
empty-string-to-undefined conversion of `advancedTask.deadline || undefined`). -/
def createAdvancedTask (id name category : String) (priorityWeight estimatedFocusCost : ℚ)
    (deadline : Option ℚ) (mode : Mode) (now : ℚ) (s : State) : State :=
  if name.trim.isEmpty then s
  else
    { s with
      tasks := s.tasks ++
        [{ id := id
           name := name.trim
           category := category
           priorityWeight := priorityWeight
           estimatedFocusCost := estimatedFocusCost
           state := .Queued
           mode := mode
           deadline := deadline
           createdAt := now
           completedAt := none
           totalFocusSeconds := 0 }] }

/-- `runTask` of App.tsx (lines 375-388).  `hour` feeds the
`getAdaptiveFocusSeconds()` call computing the total. -/
def runTask (hour : Nat) (taskId : String) (s : State) : State :=
  let total := getAdaptiveFocusSeconds hour s
  { s with
    activeTaskId := some taskId
    tasks := s.tasks.map fun t =>
      if some t.id = s.activeTaskId ∧ t.state = .Running then { t with state := .Suspended }
      else if t.id = taskId then { t with state := .Running }
      else t
    timer := { phase := .focus, running := true, remaining := total, total := total } }

/-- `pauseOrResume` of App.tsx (lines 390-400). -/
def pauseOrResume (s : State) : State :=
  { s with
    timer := { s.timer with running := !s.timer.running }
    tasks := s.tasks.map fun t =>
      if some t.id = s.activeTaskId then
        { t with state := if s.timer.running then .Suspended else .Running }
      else t }

/-- The `pomodoro` record as it may come back from `JSON.parse`: any of the
per-mode entries may be missing (object spread then leaves the default
entry in place). -/
structure StoredPomodoro where
  student : Option PomodoroProfile
  worker : Option PomodoroProfile
  custom : Option PomodoroProfile
deriving DecidableEq, Repr

/-- The `settings` object as it may come back from `JSON.parse`: any
subfield may be missing.  A key present in the parsed JSON is `some`;
`JSON.parse` never produces an `undefined` property value. -/
structure StoredSettings where
  mode : Option Mode
  tone : Option Tone
  pomodoro : Option StoredPomodoro
  neuralIntensity : Option ℚ
  notificationStrength : Option ℚ
  adaptivePomodoro : Option Bool
  volume : Option ℚ
  focusMode : Option Bool
  presetSound : Option PresetSound
  customSoundPath : Option String
  useCustomSound : Option Bool
deriving DecidableEq, Repr

/-- A stored Root State as read back from `localStorage`: the `settings`
object itself, and each of its subfields, may be missing; `normalizeState`
repairs exactly those (the top-level fields are spread through untouched). -/
structure StoredState where
  tasks : List Task
  sessions : List Session
  settings : Option StoredSettings
  timer : Timer
  activeTaskId : Option String
  streak : Nat
  onboardingDone : Bool
  rules : List RuleTemplate
deriving DecidableEq, Repr

/-- `JSON.stringify` followed by `JSON.parse`: every field of the live
state is present in the stored form.  (`undefined`-valued optional fields
are dropped by `stringify` and read back as missing, which `Option` already
identifies.) -/
def serializeState (s : State) : StoredState :=
  { tasks := s.tasks
    sessions := s.sessions
    settings := some
      { mode := some s.settings.mode
        tone := some s.settings.tone
        pomodoro := some
          { student := some s.settings.pomodoro.student
            worker := some s.settings.pomodoro.worker
            custom := some s.settings.pomodoro.custom }
        neuralIntensity := some s.settings.neuralIntensity
        notificationStrength := some s.settings.notificationStrength
        adaptivePomodoro := some s.settings.adaptivePomodoro
        volume := some s.settings.volume
        focusMode := some s.settings.focusMode
        presetSound := some s.settings.presetSound
        customSoundPath := some s.settings.customSoundPath
        useCustomSound := some s.settings.useCustomSound }
    timer := s.timer
    activeTaskId := s.activeTaskId
    streak := s.streak
    onboardingDone := s.onboardingDone
    rules := s.rules }

/-- `normalizeState` of App.tsx (lines 107-119): spread the candidate over
the whole state, the candidate's settings over `defaultSettings`, and the
candidate's per-mode pomodoro entries over the default table — a present
key wins, a missing key keeps the default. -/
def normalizeState (candidate : StoredState) : State :=
  let cs := candidate.settings
  let cp := cs.bind fun st => st.pomodoro
  { tasks := candidate.tasks
    sessions := candidate.sessions
    settings :=
      { mode := ((cs.bind fun st => st.mode).getD defaultSettings.mode)
        tone := ((cs.bind fun st => st.tone).getD defaultSettings.tone)
        pomodoro :=
          { student := ((cp.bind fun p => p.student).getD defaultSettings.pomodoro.student)
            worker := ((cp.bind fun p => p.worker).getD defaultSettings.pomodoro.worker)
            custom := ((cp.bind fun p => p.custom).getD defaultSettings.pomodoro.custom) }
        neuralIntensity := ((cs.bind fun st => st.neuralIntensity).getD defaultSettings.neuralIntensity)
        notificationStrength := ((cs.bind fun st => st.notificationStrength).getD defaultSettings.notificationStrength)
        adaptivePomodoro := ((cs.bind fun st => st.adaptivePomodoro).getD defaultSettings.adaptivePomodoro)
        volume := ((cs.bind fun st => st.volume).getD defaultSettings.volume)
        focusMode := ((cs.bind fun st => st.focusMode).getD defaultSettings.focusMode)
        presetSound := ((cs.bind fun st => st.presetSound).getD defaultSettings.presetSound)
        customSoundPath := ((cs.bind fun st => st.customSoundPath).getD defaultSettings.customSoundPath)
        useCustomSound := ((cs.bind fun st => st.useCustomSound).getD defaultSettings.useCustomSound) }
    timer := candidate.timer
    activeTaskId := candidate.activeTaskId
    streak := candidate.streak
    onboardingDone := candidate.onboardingDone
    rules := candidate.rules }

/-- The `useState` initializer of App.tsx (lines 122-130):
`stored = none` models an absent raw value under the storage key,
`stored = some none` models `JSON.parse` throwing, and
`stored = some (some c)` models a successful parse of `c`. -/
def loadState (stored : Option (Option StoredState)) : State :=
  match stored with
  | none => initialState
  | some none => initialState
  | some (some c) => normalizeState c

/-- States reachable from `initialState` by the user-facing reducers.  The
task creators carry the freshness of `uid()` as an explicit hypothesis. -/
inductive Reachable : State → Prop
  | init : Reachable initialState
  | quick (id name : String) (now : ℚ) {s : State} (h : Reachable s)
      (hfresh : ∀ t ∈ s.tasks, t.id ≠ id) :
      Reachable (createQuickTask id name now s)
  | advanced (id name category : String) (priorityWeight estimatedFocusCost : ℚ)
      (deadline : Option ℚ) (mode : Mode) (now : ℚ) {s : State} (h : Reachable s)
      (hfresh : ∀ t ∈ s.tasks, t.id ≠ id) :
      Reachable (createAdvancedTask id name category priorityWeight estimatedFocusCost
        deadline mode now s)
  | run (hour : Nat) (taskId : String) {s : State} (h : Reachable s) :
      Reachable (runTask hour taskId s)
  | pause {s : State} (h : Reachable s) : Reachable (pauseOrResume s)
  | timerTick (now : ℚ) {s : State} (h : Reachable s) : Reachable (tick now s)
  | missedDeadline (now : ℚ) {s : State} (h : Reachable s) :
      Reachable (applyMissedDeadlineRule now s)

/-- Every `Running` task is the active one. -/
def runningActive (s : State) : Prop :=
  ∀ t ∈ s.tasks, t.state = TaskState.Running → s.activeTaskId = some t.id

/-- Task ids are pairwise distinct. -/
def idsNodup (s : State) : Prop := (s.tasks.map Task.id).Nodup

/-- The auxiliary invariant maintained by all reducers. -/
def Inv (s : State) : Prop := idsNodup s ∧ runningActive s

/-! ### Concrete sample states used by witnesses and counterexamples -/

/-- A task in `Running` state with id `"t1"`. -/
def sampleRunningTask : Task :=
  { id := "t1"
    name := "Deep work"
    category := "General"
    priorityWeight := 3
    estimatedFocusCost := 3
    state := .Running
    mode := .student
    deadline := none
    createdAt := 0
    completedAt := none
    totalFocusSeconds := 0 }

/-- Focus phase running at `remaining = 0` with task `"t1"` active. -/
def sampleFocusExpiryState : State :=
  { initialState with
    tasks := [sampleRunningTask]
    activeTaskId := some "t1"
    timer := { phase := .focus, running := true, remaining := 0, total := 1500 } }

/-- Focus phase running at `remaining = 1`, `total = 1500`, task `"t1"` active. -/
def sampleRemaining1State : State :=
  { initialState with
    tasks := [sampleRunningTask]
    activeTaskId := some "t1"
    timer := { phase := .focus, running := true, remaining := 1, total := 1500 } }

/-- Task `"t1"` is Running and active (reachable by `runTask` on a fresh task). -/
def sampleRunningActiveState : State :=
  { initialState with
    tasks := [sampleRunningTask]
    activeTaskId := some "t1"
    timer := { phase := .focus, running := true, remaining := 1500, total := 1500 } }

/-- A single fresh Queued task `"t1"` in an otherwise initial state. -/
def sampleQueuedState : State :=
  { initialState with tasks := [{ sampleRunningTask with state := .Queued }] }

/-- Three tasks with past deadlines (5 < now = 10): Suspended, Completed
and Queued. -/
def sampleDeadlineState : State :=
  { initialState with
    tasks :=
      [{ sampleRunningTask with id := "d1", state := .Suspended, deadline := some 5 },
       { sampleRunningTask with id := "d2", state := .Completed, deadline := some 5 },
       { sampleRunningTask with id := "d3", state := .Queued, deadline := some 5 }] }

/-- A parsed settings object with only `volume` present. -/
def sampleSparseSettings : StoredSettings :=
  { mode := none
    tone := none
    pomodoro := none
    neuralIntensity := none
    notificationStrength := none
    adaptivePomodoro := none
    volume := some (1/2)
    focusMode := none
    presetSound := none
    customSoundPath := none
    useCustomSound := none }

/-- A stored state whose settings object is entirely missing. -/
def sampleStoredNoSettings : StoredState :=
  { serializeState initialState with settings := none }

/-- A stored state whose settings object only carries `volume`. -/
def sampleStoredSparse : StoredState :=
  { serializeState initialState with settings := some sampleSparseSettings }

theorem nodup_map_of_id_preserved (l : List Task) (f : Task → Task)
    (hf : ∀ t, (f t).id = t.id) (h : (l.map Task.id).Nodup) :
    ((l.map f).map Task.id).Nodup := by
  rw [List.map_map]
  have hc : (Task.id ∘ f) = Task.id := funext hf
  rw [hc]
  exact h

theorem filter_running_length_le_one (l : List Task) (a : String)
    (hnd : (l.map Task.id).Nodup)
    (hact : ∀ t ∈ l, t.state = TaskState.Running → t.id = a) :
    (l.filter (fun t => t.state == TaskState.Running)).length ≤ 1 := by
  induction l with
  | nil => simp
  | cons t l ih =>
    simp only [List.map_cons, List.nodup_cons] at hnd
    by_cases ht : t.state = TaskState.Running
    · have hta : t.id = a := hact t (by simp) ht
      rw [List.filter_cons_of_pos (by simp [ht])]
      have hnil : l.filter (fun u => u.state == TaskState.Running) = [] := by
        rw [List.filter_eq_nil_iff]
        intro u hu
        simp only [beq_iff_eq]
        intro hu'
        have hua : u.id = a := hact u (by simp [hu]) hu'
        exact hnd.1 (hta ▸ hua ▸ List.mem_map_of_mem Task.id hu)
      simp [hnil]
    · rw [List.filter_cons_of_neg (by simp [ht])]
      exact ih hnd.2 (fun u hu => hact u (by simp [hu]))

theorem inv_initialState : Inv initialState := by
  constructor
  · simp [idsNodup, initialState]
  · intro t ht
    simp [initialState] at ht

theorem inv_createQuickTask (id name : String) (now : ℚ) (s : State)
    (hInv : Inv s) (hfresh : ∀ t ∈ s.tasks, t.id ≠ id) :
    Inv (createQuickTask id name now s) := by
  obtain ⟨hnd, hra⟩ := hInv
  unfold createQuickTask
  split
  · exact ⟨hnd, hra⟩
  · constructor
    · unfold idsNodup at *
      simp only [List.map_append, List.map_cons, List.map_nil]
      rw [List.nodup_append]
      refine ⟨hnd, List.nodup_singleton _, ?_⟩
      intro x hx hx'
      simp only [List.mem_singleton] at hx'
      obtain ⟨t, ht, rfl⟩ := List.mem_map.mp hx
      exact hfresh t ht hx'
    · intro t ht hrun
      rcases List.mem_append.mp ht with h | h
      · exact hra t h hrun
      · simp only [List.mem_singleton] at h
        subst h
        simp at hrun

theorem inv_createAdvancedTask (id name category : String)
    (priorityWeight estimatedFocusCost : ℚ) (deadline : Option ℚ) (mode : Mode)
    (now : ℚ) (s : State) (hInv : Inv s) (hfresh : ∀ t ∈ s.tasks, t.id ≠ id) :
    Inv (createAdvancedTask id name category priorityWeight estimatedFocusCost
      deadline mode now s) := by
  obtain ⟨hnd, hra⟩ := hInv
  unfold createAdvancedTask
  split
  · exact ⟨hnd, hra⟩
  · constructor
    · unfold idsNodup at *
      simp only [List.map_append, List.map_cons, List.map_nil]
      rw [List.nodup_append]
      refine ⟨hnd, List.nodup_singleton _, ?_⟩
      intro x hx hx'
      simp only [List.mem_singleton] at hx'
      obtain ⟨t, ht, rfl⟩ := List.mem_map.mp hx
      exact hfresh t ht hx'
    · intro t ht hrun
      rcases List.mem_append.mp ht with h | h
      · exact hra t h hrun
      · simp only [List.mem_singleton] at h
        subst h
        simp at hrun

theorem inv_runTask (hour : Nat) (taskId : String) (s : State) (hInv : Inv s) :
    Inv (runTask hour taskId s) := by
  obtain ⟨hnd, hra⟩ := hInv
  constructor
  · unfold idsNodup runTask at *
    apply nodup_map_of_id_preserved _ _ _ hnd
    intro t
    split
    · rfl
    · split <;> rfl
  · intro t' ht' hrun
    unfold runTask at ht' ⊢
    simp only [List.mem_map] at ht'
    obtain ⟨u, hu, rfl⟩ := ht'
    by_cases h1 : some u.id = s.activeTaskId ∧ u.state = TaskState.Running
    · simp only [if_pos h1] at hrun
      exact absurd hrun (by simp)
    · by_cases h2 : u.id = taskId
      · simp only [if_neg h1, if_pos h2]
        simp [h2]
      · simp only [if_neg h1, if_neg h2] at hrun
        exact absurd ⟨(hra u hu hrun).symm, hrun⟩ h1

theorem inv_pauseOrResume (s : State) (hInv : Inv s) : Inv (pauseOrResume s) := by
  obtain ⟨hnd, hra⟩ := hInv
  constructor
  · unfold idsNodup pauseOrResume at *
    apply nodup_map_of_id_preserved _ _ _ hnd
    intro t
    split <;> rfl
  · intro t' ht' hrun
    unfold pauseOrResume at ht' ⊢
    simp only [List.mem_map] at ht'
    obtain ⟨u, hu, rfl⟩ := ht'
    by_cases h1 : some u.id = s.activeTaskId
    · simp only [if_pos h1]
      exact h1.symm
    · simp only [if_neg h1] at hrun
      exact absurd (hra u hu hrun).symm h1

theorem inv_tick (now : ℚ) (s : State) (hInv : Inv s) : Inv (tick now s) := by
  obtain ⟨hnd, hra⟩ := hInv
  unfold tick
  split
  · exact ⟨hnd, hra⟩
  split
  · exact ⟨hnd, hra⟩
  split
  · constructor
    · apply nodup_map_of_id_preserved _ _ _ hnd
      intro t
      split <;> rfl
    · intro t' ht' hrun
      simp only [List.mem_map] at ht'
      obtain ⟨u, hu, rfl⟩ := ht'
      by_cases h1 : some u.id = s.activeTaskId
      · simp only [if_pos h1] at hrun
        exact absurd hrun (by simp)
      · simp only [if_neg h1] at hrun
        exact absurd (hra u hu hrun).symm h1
  · exact ⟨hnd, hra⟩

theorem inv_applyMissedDeadlineRule (now : ℚ) (s : State) (hInv : Inv s) :
    Inv (applyMissedDeadlineRule now s) := by
  obtain ⟨hnd, hra⟩ := hInv
  unfold applyMissedDeadlineRule
  split
  · exact ⟨hnd, hra⟩
  · constructor
    · apply nodup_map_of_id_preserved _ _ _ hnd
      intro t
      unfold requeueTask
      cases hd : t.deadline
      · simp
      · simp only
        split <;> rfl
    · intro t' ht' hrun
      simp only [List.mem_map] at ht'
      obtain ⟨u, hu, rfl⟩ := ht'
      unfold requeueTask at hrun ⊢
      cases hd : u.deadline with
      | none =>
        simp only [hd] at hrun ⊢
        exact hra u hu hrun
      | some d =>
        simp only [hd] at hrun ⊢
        by_cases hc : d < now ∧ u.state ≠ TaskState.Completed
        · simp only [if_pos hc] at hrun
          exact absurd hrun (by simp)
        · simp only [if_neg hc] at hrun ⊢
          exact hra u hu hrun

theorem tick_decrement (now : ℚ) (s : State) (hrun : s.timer.running = true)
    (hpos : s.timer.remaining > 0) :
    tick now s = { s with timer := { s.timer with remaining := s.timer.remaining - 1 } } := by
  unfold tick
  rw [hrun]
  simp [hpos]

theorem tick_focus_expiry (now : ℚ) (s : State) (a : String)
    (hrun : s.timer.running = true) (hz : s.timer.remaining = 0)
    (hph : s.timer.phase = Phase.focus) (hact : s.activeTaskId = some a) :
    tick now s =
      { s with
        sessions := s.sessions ++
          [{ taskId := a
             startedAt := now - s.timer.total * 1000
             endedAt := some now
             plannedSeconds := s.timer.total
             completedSeconds := s.timer.total
             completed := true
             interrupted := false }]
        streak := s.streak + 1
        tasks := s.tasks.map fun t =>
          if t.id = a then
            { t with
              state := .Completed
              totalFocusSeconds := t.totalFocusSeconds + s.timer.total
              completedAt := some now }
          else t
        activeTaskId := none
        timer :=
          { phase := .«break»
            running := true
            remaining := (s.settings.pomodoro.get s.settings.mode).«break» * 60
            total := (s.settings.pomodoro.get s.settings.mode).«break» * 60 } } := by
  unfold tick
  rw [hrun, hz, hph, hact]
  simp

theorem tick_focus_expiry_no_task (now : ℚ) (s : State)
    (hrun : s.timer.running = true) (hz : s.timer.remaining = 0)
    (hph : s.timer.phase = Phase.focus) (hact : s.activeTaskId = none) :
    tick now s =
      { s with
        streak := s.streak + 1
        activeTaskId := none
        timer :=
          { phase := .«break»
            running := true
            remaining := (s.settings.pomodoro.get s.settings.mode).«break» * 60
            total := (s.settings.pomodoro.get s.settings.mode).«break» * 60 } } := by
  unfold tick
  rw [hrun, hz, hph, hact]
  simp

theorem tick_break_expiry (now : ℚ) (s : State)
    (hrun : s.timer.running = true) (hz : s.timer.remaining = 0)
    (hph : s.timer.phase = Phase.«break») :
    tick now s =
      { s with
        timer :=
          { phase := .focus
            running := false
            remaining := (s.settings.pomodoro.get s.settings.mode).focus * 60
            total := (s.settings.pomodoro.get s.settings.mode).focus * 60 } } := by
  unfold tick
  rw [hrun, hz, hph]
  simp

theorem requeueTask_idem (now : ℚ) (t : Task) :
    requeueTask now (requeueTask now t) = requeueTask now t := by
  unfold requeueTask
  cases hd : t.deadline with
  | none => simp [hd]
  | some d =>
    simp only [hd]
    by_cases hc : d < now ∧ t.state ≠ TaskState.Completed
    · simp only [if_pos hc]
      simp [hd, hc.1]
    · simp [hd, if_neg hc, hc]

theorem reachable_inv {s : State} (h : Reachable s) : Inv s := by
  induction h with
  | init => exact inv_initialState
  | quick id name now h hfresh ih => exact inv_createQuickTask _ _ _ _ ih hfresh
  | advanced id name category priorityWeight estimatedFocusCost deadline mode now h hfresh ih =>
    exact inv_createAdvancedTask _ _ _ _ _ _ _ _ _ ih hfresh
  | run hour taskId h ih => exact inv_runTask _ _ _ ih
  | pause h ih => exact inv_pauseOrResume _ ih
  | timerTick now h ih => exact inv_tick _ _ ih
  | missedDeadline now h ih => exact inv_applyMissedDeadlineRule _ _ ih

/-! ### Claim theorems -/

/-- **C2**: `getAdaptiveFocusSeconds` coincides with the reference
algorithm of spec section 4.2 on every state and every hour: base minutes
when adaptive is off; otherwise base minutes adjusted by the
completion-rate, task-cost and off-hours rules, clamped to [15,70], times
60. -/
theorem claim2_adaptive_matches_spec (hour : Nat) (s : State) :
    getAdaptiveFocusSeconds hour s = specAdaptiveDurationSeconds hour s := rfl

/-- **C3**: every state reachable from the initial state by any sequence of
task creations, `runTask`, `pauseOrResume`, timer ticks and
`applyMissedDeadlineRule` has at most one task with status `Running`. -/
theorem claim3_at_most_one_running (s : State) (h : Reachable s) :
    (s.tasks.filter fun t => t.state == TaskState.Running).length ≤ 1 := by
  obtain ⟨hnd, hra⟩ := reachable_inv h
  cases hact : s.activeTaskId with
  | none =>
    apply filter_running_length_le_one s.tasks ""
    · exact hnd
    · intro t ht hrunt
      have := hra t ht hrunt
      rw [hact] at this
      cases this
  | some a =>
    apply filter_running_length_le_one s.tasks a
    · exact hnd
    · intro t ht hrunt
      have := hra t ht hrunt
      rw [hact] at this
      exact (Option.some_inj.mp this).symm

/-- Witness for C3: a concrete reachable state (create a task, then run
it) with exactly one Running task. -/
theorem claim3_witness :
    ((runTask 12 "a" (createQuickTask "a" "Deep work" 0 initialState)).tasks.filter
      fun t => t.state == TaskState.Running).length ≤ 1 :=
  claim3_at_most_one_running _
    (Reachable.run 12 "a"
      (Reachable.quick "a" "Deep work" 0 Reachable.init
        (by intro t ht; simp [initialState] at ht)))

/-- **C9**: at startup, an absent stored value (`loadState none`) or an
undeserializable one (`loadState (some none)`) both yield exactly the
default initial state: empty task and session lists, default settings,
timer at focus/not-running/remaining=total=25*60, no active task, streak
0, onboarding not done, and all three rules enabled. -/
theorem claim9_startup_fallback :
    loadState none = initialState ∧
    loadState (some none) = initialState ∧
    initialState =
      { tasks := []
        sessions := []
        settings := defaultSettings
        timer := { phase := Phase.focus, running := false, remaining := 25 * 60, total := 25 * 60 }
        activeTaskId := none
        streak := 0
        onboardingDone := false
        rules := [RuleTemplate.missed_deadline_requeue, RuleTemplate.early_break_reduce_next,
          RuleTemplate.streak_extend_session] } :=
  ⟨rfl, rfl, rfl⟩

/-- **C1**: a tick with the timer running in focus phase at `remaining = 0`
and a task active appends a completed Session (planned = completed = total,
completed, not interrupted, start = now − total seconds, end = now), marks
the active task Completed adding total to its accumulated focus seconds,
increments the streak, clears the active task id, and starts the break
phase running with remaining = total = the current mode's configured break
minutes × 60. -/
theorem claim1_focus_expiry (now : ℚ) (s : State) (a : String)
    (hrun : s.timer.running = true) (hph : s.timer.phase = Phase.focus)
    (hz : s.timer.remaining = 0) (hact : s.activeTaskId = some a) :
    (tick now s).sessions = s.sessions ++
      [{ taskId := a
         startedAt := now - s.timer.total * 1000
         endedAt := some now
         plannedSeconds := s.timer.total
         completedSeconds := s.timer.total
         completed := true
         interrupted := false }] ∧
    (tick now s).tasks = s.tasks.map (fun t =>
      if t.id = a then
        { t with
          state := TaskState.Completed
          totalFocusSeconds := t.totalFocusSeconds + s.timer.total
          completedAt := some now }
      else t) ∧
    (tick now s).streak = s.streak + 1 ∧
    (tick now s).activeTaskId = none ∧
    (tick now s).timer =
      { phase := Phase.«break»
        running := true
        remaining := (s.settings.pomodoro.get s.settings.mode).«break» * 60
        total := (s.settings.pomodoro.get s.settings.mode).«break» * 60 } := by
  rw [tick_focus_expiry now s a hrun hz hph hact]
  exact ⟨rfl, rfl, rfl, rfl, rfl⟩

/-- Witness for C1 at a concrete state: one Running active task, focus
phase expiring; the session list, task state, streak, active id and timer
all change as claimed. -/
theorem claim1_witness :
    (tick 1000000 sampleFocusExpiryState).streak = 1 ∧
    (tick 1000000 sampleFocusExpiryState).activeTaskId = none ∧
    (tick 1000000 sampleFocusExpiryState).timer.phase = Phase.«break» ∧
    (tick 1000000 sampleFocusExpiryState).sessions =
      sampleFocusExpiryState.sessions ++
        [{ taskId := "t1"
           startedAt := 1000000 - sampleFocusExpiryState.timer.total * 1000
           endedAt := some 1000000
           plannedSeconds := sampleFocusExpiryState.timer.total
           completedSeconds := sampleFocusExpiryState.timer.total
           completed := true
           interrupted := false }] := by
  have h := claim1_focus_expiry 1000000 sampleFocusExpiryState "t1"
    (by decide) (by decide) (by decide) (by decide)
  refine ⟨?_, h.2.2.2.1, ?_, h.1⟩
  · rw [h.2.2.1]
    decide
  · rw [h.2.2.2.2]

/-- **C7**: a tick with the timer running in break phase at
`remaining = 0` switches to the focus phase not running, with
remaining = total = the current mode's focus minutes × 60 (the code uses
the fixed configured value, which is one of the alternatives the claim
allows); the active task id is not set, and tasks, sessions and streak are
unchanged. -/
theorem claim7_break_expiry (now : ℚ) (s : State)
    (hrun : s.timer.running = true) (hph : s.timer.phase = Phase.«break»)
    (hz : s.timer.remaining = 0) :
    (tick now s).timer =
      { phase := Phase.focus
        running := false
        remaining := (s.settings.pomodoro.get s.settings.mode).focus * 60
        total := (s.settings.pomodoro.get s.settings.mode).focus * 60 } ∧
    (tick now s).activeTaskId = s.activeTaskId ∧
    (tick now s).tasks = s.tasks ∧
    (tick now s).sessions = s.sessions ∧
    (tick now s).streak = s.streak := by
  rw [tick_break_expiry now s hrun hz hph]
  exact ⟨rfl, rfl, rfl, rfl, rfl⟩

/-- Witness for C7 at a concrete state: a running break phase at 0
transitions to a paused focus phase of 25·60 seconds with nothing else
changed. -/
theorem claim7_witness :
    (tick 5 { initialState with
        timer := { phase := Phase.«break», running := true, remaining := 0, total := 300 } }).timer =
      { phase := Phase.focus, running := false, remaining := 25 * 60, total := 25 * 60 } ∧
    (tick 5 { initialState with
        timer := { phase := Phase.«break», running := true, remaining := 0, total := 300 } }).activeTaskId = none := by
  have h := claim7_break_expiry 5
    { initialState with
      timer := { phase := Phase.«break», running := true, remaining := 0, total := 300 } }
    (by decide) (by decide) (by decide)
  exact ⟨h.1, h.2.1⟩

/-- **C10**: a tick with the timer running in focus phase at
`remaining = 0` but no active task still increments the streak and starts
the break phase running with remaining = total = break minutes × 60, while
the session list and every task are unchanged. -/
theorem claim10_focus_expiry_no_task (now : ℚ) (s : State)
    (hrun : s.timer.running = true) (hph : s.timer.phase = Phase.focus)
    (hz : s.timer.remaining = 0) (hact : s.activeTaskId = none) :
    (tick now s).streak = s.streak + 1 ∧
    (tick now s).timer =
      { phase := Phase.«break»
        running := true
        remaining := (s.settings.pomodoro.get s.settings.mode).«break» * 60
        total := (s.settings.pomodoro.get s.settings.mode).«break» * 60 } ∧
    (tick now s).sessions = s.sessions ∧
    (tick now s).tasks = s.tasks := by
  rw [tick_focus_expiry_no_task now s hrun hz hph hact]
  exact ⟨rfl, rfl, rfl, rfl⟩

/-- Witness for C10 at a concrete state: a running focus phase at 0 with
no active task bumps the streak to 1 and opens a running 5-minute break. -/
theorem claim10_witness :
    (tick 7 { initialState with
        timer := { phase := Phase.focus, running := true, remaining := 0, total := 1500 } }).streak = 1 ∧
    (tick 7 { initialState with
        timer := { phase := Phase.focus, running := true, remaining := 0, total := 1500 } }).timer =
      { phase := Phase.«break», running := true, remaining := 5 * 60, total := 5 * 60 } := by
  have h := claim10_focus_expiry_no_task 7
    { initialState with
      timer := { phase := Phase.focus, running := true, remaining := 0, total := 1500 } }
    (by decide) (by decide) (by decide) (by decide)
  refine ⟨?_, ?_⟩
  · rw [h.1]
    decide
  · rw [h.2.1]
    norm_num [initialState, defaultSettings, PomodoroTable.get]

/-- **C4** (counterexample): at the concrete state with the focus timer
running at `remaining = 1`, `total = 1500` and task `"t1"` active, the tick
does not fire the completion transition — it merely decrements: no Session
is produced, the streak stays 0, the task stays Running, and the timer
stays in the focus phase (now at `remaining = 0`, still running) —
refuting the claim that the transition fires on that same tick. -/
theorem claim4_counterexample :
    (tick 1000000 sampleRemaining1State).sessions = [] ∧
    (tick 1000000 sampleRemaining1State).streak = 0 ∧
    (tick 1000000 sampleRemaining1State).timer.phase = Phase.focus ∧
    (tick 1000000 sampleRemaining1State).timer.remaining = 0 ∧
    (tick 1000000 sampleRemaining1State).timer.running = true ∧
    (tick 1000000 sampleRemaining1State).tasks.map Task.state = [TaskState.Running] := by
  norm_num [tick, sampleRemaining1State, sampleRunningTask, initialState, defaultSettings]

/-- **C4** (amended): a tick at `remaining = 1`, phase focus, running, with
active task `a` and `total = 1500` only decrements remaining to 0 and
changes nothing else; the completion transition fires on the *following*
tick, which then produces the Session with `completedSeconds = 1500` and
`completed = true`, marks task `a` Completed, increments the streak by 1,
and sets the timer to break/running/remaining = total = break minutes × 60. -/
theorem claim4_amended (now now2 : ℚ) (s : State) (a : String)
    (hrun : s.timer.running = true) (hph : s.timer.phase = Phase.focus)
    (hr1 : s.timer.remaining = 1) (htot : s.timer.total = 1500)
    (hact : s.activeTaskId = some a) :
    ((tick now s).timer.remaining = 0 ∧
     (tick now s).timer.phase = Phase.focus ∧
     (tick now s).timer.running = true ∧
     (tick now s).sessions = s.sessions ∧
     (tick now s).tasks = s.tasks ∧
     (tick now s).streak = s.streak ∧
     (tick now s).activeTaskId = s.activeTaskId) ∧
    ((tick now2 (tick now s)).sessions = s.sessions ++
        [{ taskId := a
           startedAt := now2 - 1500 * 1000
           endedAt := some now2
           plannedSeconds := 1500
           completedSeconds := 1500
           completed := true
           interrupted := false }] ∧
     (tick now2 (tick now s)).tasks = s.tasks.map (fun t =>
        if t.id = a then
          { t with
            state := TaskState.Completed
            totalFocusSeconds := t.totalFocusSeconds + 1500
            completedAt := some now2 }
        else t) ∧
     (tick now2 (tick now s)).streak = s.streak + 1 ∧
     (tick now2 (tick now s)).timer =
       { phase := Phase.«break»
         running := true
         remaining := (s.settings.pomodoro.get s.settings.mode).«break» * 60
         total := (s.settings.pomodoro.get s.settings.mode).«break» * 60 }) := by
  have h1 : tick now s = { s with timer := { s.timer with remaining := s.timer.remaining - 1 } } :=
    tick_decrement now s hrun (by rw [hr1]; norm_num)
  have hz' : (tick now s).timer.remaining = 0 := by
    rw [h1]
    show s.timer.remaining - 1 = 0
    rw [hr1]
    norm_num
  have hrun' : (tick now s).timer.running = true := by rw [h1]; exact hrun
  have hph' : (tick now s).timer.phase = Phase.focus := by rw [h1]; exact hph
  have hact' : (tick now s).activeTaskId = some a := by rw [h1]; exact hact
  have h2 := tick_focus_expiry now2 (tick now s) a hrun' hz' hph' hact'
  constructor
  · exact ⟨hz', hph', hrun', by rw [h1], by rw [h1], by rw [h1], by rw [h1]⟩
  · rw [h2, h1]
    refine ⟨?_, ?_, rfl, ?_⟩ <;> simp [htot]

/-- Witness for the amended C4 at the concrete remaining-1 state: the
first tick reaches 0, the second produces the completion. -/
theorem claim4_witness :
    (tick 10 sampleRemaining1State).timer.remaining = 0 ∧
    (tick 20 (tick 10 sampleRemaining1State)).streak = 1 ∧
    (tick 20 (tick 10 sampleRemaining1State)).timer.phase = Phase.«break» := by
  have h := claim4_amended 10 20 sampleRemaining1State "t1"
    (by decide) (by decide) (by decide) (by decide) (by decide)
  refine ⟨h.1.1, ?_, ?_⟩
  · rw [h.2.2.2.1]
    decide
  · rw [h.2.2.2.2]

/-- **C5** (counterexample): `"t1"` is present in the task list of the
concrete state in which `"t1"` is itself the active Running task, yet
`runTask "t1"` leaves it **Suspended**, not Running: the suspend branch
(`task.id === prev.activeTaskId && task.state === 'Running'`) fires before
the `task.id === taskId` branch, refuting the claim for T = the active
Running task. -/
theorem claim5_counterexample :
    ("t1" ∈ sampleRunningActiveState.tasks.map Task.id) ∧
    (runTask 12 "t1" sampleRunningActiveState).tasks.map Task.state = [TaskState.Suspended] ∧
    (runTask 12 "t1" sampleRunningActiveState).activeTaskId = some "t1" := by
  refine ⟨by decide, ?_, rfl⟩
  simp [runTask, sampleRunningActiveState, sampleRunningTask, initialState]

/-- **C5** (amended): for a state satisfying the documented invariant
(task ids distinct, every Running task is the active one) and a task id T
in the list such that T is not itself the active Running task:
`runTask T` suspends any previously Running task, gives T status Running,
sets the active task id to T, and sets the timer to focus, running, with
remaining = total = `getAdaptiveFocusSeconds`.  (When T *is* the active
Running task, the code suspends T instead — the counterexample above.) -/
theorem claim5_amended (hour : Nat) (T : String) (s : State)
    (hnd : idsNodup s) (hra : runningActive s)
    (hT : T ∈ s.tasks.map Task.id)
    (hnot : ¬ ∃ t ∈ s.tasks, t.id = T ∧ t.state = TaskState.Running ∧ s.activeTaskId = some T) :
    (∀ t ∈ s.tasks, t.state = TaskState.Running →
      ∀ t' ∈ (runTask hour T s).tasks, t'.id = t.id → t'.state = TaskState.Suspended) ∧
    (∀ t' ∈ (runTask hour T s).tasks, t'.id = T → t'.state = TaskState.Running) ∧
    (∃ t' ∈ (runTask hour T s).tasks, t'.id = T ∧ t'.state = TaskState.Running) ∧
    (runTask hour T s).activeTaskId = some T ∧
    (runTask hour T s).timer =
      { phase := Phase.focus
        running := true
        remaining := getAdaptiveFocusSeconds hour s
        total := getAdaptiveFocusSeconds hour s } := by
  refine ⟨?_, ?_, ?_, rfl, rfl⟩
  · intro t ht hrunT t' ht' hid
    simp only [runTask, List.mem_map] at ht'
    obtain ⟨u, hu, rfl⟩ := ht'
    by_cases c1 : some u.id = s.activeTaskId ∧ u.state = TaskState.Running
    · simp only [if_pos c1]
    · by_cases c2 : u.id = T
      · exfalso
        simp only [if_neg c1, if_pos c2] at hid
        exact hnot ⟨t, ht, hid ▸ c2, hrunT, (hra t ht hrunT).symm ▸ congrArg some (hid ▸ c2)⟩
      · simp only [if_neg c1, if_neg c2] at hid ⊢
        have hut : u = t := List.inj_on_of_nodup_map hnd hu ht hid
        subst hut
        exact absurd ⟨(hra u hu hrunT).symm, hrunT⟩ c1
  · intro t' ht' hid
    simp only [runTask, List.mem_map] at ht'
    obtain ⟨u, hu, rfl⟩ := ht'
    by_cases c1 : some u.id = s.activeTaskId ∧ u.state = TaskState.Running
    · exfalso
      simp only [if_pos c1] at hid
      exact hnot ⟨u, hu, hid, c1.2, by rw [← c1.1, hid]⟩
    · by_cases c2 : u.id = T
      · simp only [if_neg c1, if_pos c2]
      · simp only [if_neg c1, if_neg c2] at hid
        exact absurd hid c2
  · obtain ⟨u, hu, huid⟩ := List.mem_map.mp hT
    by_cases c1 : some u.id = s.activeTaskId ∧ u.state = TaskState.Running
    · exact absurd ⟨u, hu, huid, c1.2, by rw [← c1.1, huid]⟩ hnot
    · refine ⟨{ u with state := TaskState.Running }, ?_, huid, rfl⟩
      simp only [runTask, List.mem_map]
      refine ⟨u, hu, ?_⟩
      simp only [if_neg c1, if_pos huid]

/-- Witness for the amended C5: running the fresh Queued task `"t1"` makes
it Running and active. -/
theorem claim5_witness :
    (∃ t' ∈ (runTask 12 "t1" sampleQueuedState).tasks,
      t'.id = "t1" ∧ t'.state = TaskState.Running) ∧
    (runTask 12 "t1" sampleQueuedState).activeTaskId = some "t1" := by
  have h := claim5_amended 12 "t1" sampleQueuedState
    (by show ((sampleQueuedState.tasks.map Task.id)).Nodup; decide)
    (by
      show ∀ t ∈ sampleQueuedState.tasks,
        t.state = TaskState.Running → sampleQueuedState.activeTaskId = some t.id
      decide)
    (by decide) (by decide)
  exact ⟨h.2.2.1, h.2.2.2.1⟩

theorem task_set_queued_self (t : Task) (h : t.state = TaskState.Queued) :
    { t with state := TaskState.Queued } = t := by
  cases t
  simp_all

theorem requeueTask_past (now : ℚ) (t : Task) (d : ℚ) (hd : t.deadline = some d)
    (hlt : d < now) (hnc : t.state ≠ TaskState.Completed) :
    requeueTask now t = { t with state := TaskState.Queued } := by
  obtain ⟨tid, tname, tcat, tpw, tefc, tst, tmode, tdl, tca, tcoa, ttfs⟩ := t
  dsimp only at hd hnc ⊢
  subst hd
  simp [requeueTask, hlt, hnc]

theorem requeueTask_skip (now : ℚ) (t : Task)
    (hno : ∀ d, t.deadline = some d → ¬(d < now ∧ t.state ≠ TaskState.Completed)) :
    requeueTask now t = t := by
  unfold requeueTask
  cases hde : t.deadline with
  | none => rfl
  | some d => simp [hno d hde]

/-- **C6**: with the missed_deadline_requeue rule enabled, every task
whose deadline is strictly past and whose status is not Completed gets
status Queued; every other task — Completed, no deadline, or deadline not
past — is left unchanged; a past-deadline Queued task stays Queued; and
applying the rule twice (at the same instant) equals applying it once. -/
theorem claim6_missed_deadline (now : ℚ) (s : State)
    (henabled : s.rules.contains RuleTemplate.missed_deadline_requeue = true) :
    (applyMissedDeadlineRule now s).tasks.length = s.tasks.length ∧
    (∀ i (h : i < s.tasks.length) (h' : i < (applyMissedDeadlineRule now s).tasks.length),
      (∀ d, (s.tasks.get ⟨i, h⟩).deadline = some d → d < now →
        (s.tasks.get ⟨i, h⟩).state ≠ TaskState.Completed →
        (applyMissedDeadlineRule now s).tasks.get ⟨i, h'⟩ =
          { s.tasks.get ⟨i, h⟩ with state := TaskState.Queued }) ∧
      ((∀ d, (s.tasks.get ⟨i, h⟩).deadline = some d →
          ¬(d < now ∧ (s.tasks.get ⟨i, h⟩).state ≠ TaskState.Completed)) →
        (applyMissedDeadlineRule now s).tasks.get ⟨i, h'⟩ = s.tasks.get ⟨i, h⟩) ∧
      ((s.tasks.get ⟨i, h⟩).state = TaskState.Queued →
        (applyMissedDeadlineRule now s).tasks.get ⟨i, h'⟩ = s.tasks.get ⟨i, h⟩)) ∧
    applyMissedDeadlineRule now (applyMissedDeadlineRule now s) = applyMissedDeadlineRule now s := by
  have h1 : applyMissedDeadlineRule now s = { s with tasks := s.tasks.map (requeueTask now) } := by
    unfold applyMissedDeadlineRule
    simp only [henabled, Bool.not_true, Bool.false_eq_true, if_false]
  have e : (applyMissedDeadlineRule now s).tasks = s.tasks.map (requeueTask now) := by
    rw [h1]
  refine ⟨by rw [e]; simp, ?_, ?_⟩
  · intro i h h'
    have hget : (applyMissedDeadlineRule now s).tasks.get ⟨i, h'⟩ =
        requeueTask now (s.tasks.get ⟨i, h⟩) := by
      rw [List.get_of_eq e ⟨i, h'⟩]
      simp [List.get_eq_getElem, List.getElem_map]
    refine ⟨?_, ?_, ?_⟩
    · intro d hd hlt hnc
      rw [hget]
      exact requeueTask_past now (s.tasks.get ⟨i, h⟩) d hd hlt hnc
    · intro hno
      rw [hget]
      exact requeueTask_skip now (s.tasks.get ⟨i, h⟩) hno
    · intro hq
      rw [hget]
      cases hde : (s.tasks.get ⟨i, h⟩).deadline with
      | none =>
        exact requeueTask_skip now _ (fun d hd => by rw [hde] at hd; cases hd)
      | some d =>
        by_cases hlt : d < now
        · rw [requeueTask_past now _ d hde hlt (by rw [hq]; simp)]
          exact task_set_queued_self _ hq
        · refine requeueTask_skip now _ (fun d2 hd2 => ?_)
          rw [hde] at hd2
          injection hd2 with hdd
          subst hdd
          exact fun hcon => hlt hcon.1
  · have h2 : applyMissedDeadlineRule now { s with tasks := s.tasks.map (requeueTask now) } =
        { s with tasks := (s.tasks.map (requeueTask now)).map (requeueTask now) } := by
      unfold applyMissedDeadlineRule
      simp only [henabled, Bool.not_true, Bool.false_eq_true, if_false]
    rw [h1, h2, List.map_map]
    have hff : requeueTask now ∘ requeueTask now = requeueTask now :=
      funext (requeueTask_idem now)
    rw [hff]

/-- Witness for C6: on three past-deadline tasks (Suspended, Completed,
Queued) at `now = 10`, one application requeues the Suspended task, leaves
the Completed one alone, keeps the Queued one Queued, and a second
application changes nothing. -/
theorem claim6_witness :
    applyMissedDeadlineRule 10 (applyMissedDeadlineRule 10 sampleDeadlineState) =
      applyMissedDeadlineRule 10 sampleDeadlineState ∧
    (applyMissedDeadlineRule 10 sampleDeadlineState).tasks.map Task.state =
      [TaskState.Queued, TaskState.Completed, TaskState.Queued] := by
  refine ⟨(claim6_missed_deadline 10 sampleDeadlineState (by decide)).2.2, ?_⟩
  simp [applyMissedDeadlineRule, requeueTask, sampleDeadlineState, sampleRunningTask,
    initialState]
  norm_num

/-- **C8**: reading back a serialized Root State through `normalizeState`
is the identity, and on a stored value with missing settings subfields
(including missing per-mode pomodoro entries) `normalizeState` backfills
exactly the missing subfields from `defaultSettings` while preserving
every present field and every top-level field. -/
theorem claim8_round_trip :
    (∀ s : State, normalizeState (serializeState s) = s) ∧
    (∀ c : StoredState,
      (normalizeState c).tasks = c.tasks ∧
      (normalizeState c).sessions = c.sessions ∧
      (normalizeState c).timer = c.timer ∧
      (normalizeState c).activeTaskId = c.activeTaskId ∧
      (normalizeState c).streak = c.streak ∧
      (normalizeState c).onboardingDone = c.onboardingDone ∧
      (normalizeState c).rules = c.rules) ∧
    (∀ c : StoredState, c.settings = none → (normalizeState c).settings = defaultSettings) ∧
    (∀ c : StoredState, ∀ st, c.settings = some st →
      (normalizeState c).settings.mode = st.mode.getD defaultSettings.mode ∧
      (normalizeState c).settings.tone = st.tone.getD defaultSettings.tone ∧
      (normalizeState c).settings.neuralIntensity =
        st.neuralIntensity.getD defaultSettings.neuralIntensity ∧
      (normalizeState c).settings.notificationStrength =
        st.notificationStrength.getD defaultSettings.notificationStrength ∧
      (normalizeState c).settings.adaptivePomodoro =
        st.adaptivePomodoro.getD defaultSettings.adaptivePomodoro ∧
      (normalizeState c).settings.volume = st.volume.getD defaultSettings.volume ∧
      (normalizeState c).settings.focusMode = st.focusMode.getD defaultSettings.focusMode ∧
      (normalizeState c).settings.presetSound =
        st.presetSound.getD defaultSettings.presetSound ∧
      (normalizeState c).settings.customSoundPath =
        st.customSoundPath.getD defaultSettings.customSoundPath ∧
      (normalizeState c).settings.useCustomSound =
        st.useCustomSound.getD defaultSettings.useCustomSound ∧
      (st.pomodoro = none → (normalizeState c).settings.pomodoro = defaultSettings.pomodoro) ∧
      (∀ p, st.pomodoro = some p →
        (normalizeState c).settings.pomodoro.student =
          p.student.getD defaultSettings.pomodoro.student ∧
        (normalizeState c).settings.pomodoro.worker =
          p.worker.getD defaultSettings.pomodoro.worker ∧
        (normalizeState c).settings.pomodoro.custom =
          p.custom.getD defaultSettings.pomodoro.custom)) := by
  refine ⟨?_, ?_, ?_, ?_⟩
  · intro s
    rfl
  · intro c
    exact ⟨rfl, rfl, rfl, rfl, rfl, rfl, rfl⟩
  · intro c hc
    simp [normalizeState, hc]
  · intro c st hc
    refine ⟨?_, ?_, ?_, ?_, ?_, ?_, ?_, ?_, ?_, ?_, ?_, ?_⟩ <;>
      simp [normalizeState, hc]
    · intro hp
      simp [hp]
    · intro p hp
      simp [hp]

/-- Witness for C8: the round trip at the initial state, a fully-missing
settings object falling back to defaults, and a partial settings object
keeping its volume while defaulting its mode. -/
theorem claim8_witness :
    normalizeState (serializeState initialState) = initialState ∧
    (normalizeState sampleStoredNoSettings).settings = defaultSettings ∧
    (normalizeState sampleStoredSparse).settings.volume = 1/2 ∧
    (normalizeState sampleStoredSparse).settings.mode = Mode.student := by
  refine ⟨claim8_round_trip.1 initialState,
    claim8_round_trip.2.2.1 _ rfl, ?_, ?_⟩
  · have h := (claim8_round_trip.2.2.2 sampleStoredSparse sampleSparseSettings rfl).2.2.2.2.2.1
    rw [h]
    simp [sampleSparseSettings]
  · have h := (claim8_round_trip.2.2.2 sampleStoredSparse sampleSparseSettings rfl).1
    rw [h]
    simp [sampleSparseSettings, defaultSettings]

end Parth
